import Mathlib

/-!
Verification of the DAIG autonomous-node core against its source
(`src/daig_node.py`, `src/firebase_config.py`).  The Python data model and
operations are shallowly embedded: enums become inductive types, dataclasses
become structures, floats are modelled as rationals, mutable object state is
passed explicitly, and fallible operations return `Except`/`Option`.
-/

namespace Daig

/-- `NodeStatus` enum from `src/daig_node.py` lines 29–36: the six mutually
exclusive operational states of a node. -/
inductive NodeStatus where
  | BOOTSTRAPPING
  | ACTIVE
  | LEARNING
  | ADAPTING
  | DEGRADED
  | OFFLINE
deriving DecidableEq, Repr, Fintype

/-- The string value attached to each `NodeStatus` member in the Python enum. -/
def NodeStatus.value : NodeStatus → String
  | .BOOTSTRAPPING => "bootstrapping"
  | .ACTIVE => "active"
  | .LEARNING => "learning"
  | .ADAPTING => "adapting"
  | .DEGRADED => "degraded"
  | .OFFLINE => "offline"

/-- `NodeCapability` enum from `src/daig_node.py` lines 38–44: the fixed
vocabulary of capability flags. -/
inductive NodeCapability where
  | DATA_PROCESSING
  | ML_TRAINING
  | DECISION_MAKING
  | COMMUNICATION
  | SELF_HEALING
deriving DecidableEq, Repr, Fintype

/-- The string value attached to each `NodeCapability` member in the Python enum. -/
def NodeCapability.value : NodeCapability → String
  | .DATA_PROCESSING => "data_processing"
  | .ML_TRAINING => "ml_training"
  | .DECISION_MAKING => "decision_making"
  | .COMMUNICATION => "communication"
  | .SELF_HEALING => "self_healing"

/-- `NodeMetrics` dataclass from `src/daig_node.py` lines 46–55.  Python
floats are modelled as rationals; the field defaults are the dataclass
defaults (`uptime_seconds = 0.0`, `processing_success_rate = 1.0`, counters
zero). -/
structure NodeMetrics where
  uptime_seconds : ℚ := 0
  processing_success_rate : ℚ := 1
  learning_iterations : ℕ := 0
  adaptation_count : ℕ := 0
  error_count : ℕ := 0
  avg_response_time_ms : ℚ := 0
  memory_usage_mb : ℚ := 0
deriving DecidableEq, Repr

/-- A default-constructed `NodeMetrics()` with all dataclass defaults. -/
def NodeMetrics.mkDefault : NodeMetrics := {}

/-- A value stored in the Firestore-compatible dict: Python floats and ints
are distinct runtime types, so the dict value type distinguishes them. -/
inductive FireValue where
  | float (q : ℚ)
  | intVal (n : ℕ)
deriving DecidableEq, Repr

/-- Modelled from the spec: the source `NodeMetrics.to_dict`
(`src/daig_node.py` lines 57–63) is truncated mid-definition after the
`adaptation_count` key.  The first four entries are taken from the source;
the remaining three (`error_count`, `avg_response_time_ms`,
`memory_usage_mb`) follow the persisted record shape of spec §6
("metrics: {7 numeric fields as in §3}"). -/
def NodeMetrics.to_dict (m : NodeMetrics) : List (String × FireValue) :=
  [ ("uptime_seconds", .float m.uptime_seconds),
    ("processing_success_rate", .float m.processing_success_rate),
    ("learning_iterations", .intVal m.learning_iterations),
    ("adaptation_count", .intVal m.adaptation_count),
    ("error_count", .intVal m.error_count),
    ("avg_response_time_ms", .float m.avg_response_time_ms),
    ("memory_usage_mb", .float m.memory_usage_mb) ]

/-- Look up a key in a dict and require a float value. -/
def dictFloat (d : List (String × FireValue)) (k : String) : Option ℚ :=
  match d.lookup k with
  | some (.float q) => some q
  | _ => none

/-- Look up a key in a dict and require an integer value. -/
def dictInt (d : List (String × FireValue)) (k : String) : Option ℕ :=
  match d.lookup k with
  | some (.intVal n) => some n
  | _ => none

/-- Modelled from the spec: the inverse of `to_dict` used when loading a
persisted record (no deserializer survives in the truncated source); each of
the seven §3 metric fields is read back from its key. -/
def NodeMetrics.of_dict (d : List (String × FireValue)) : Option NodeMetrics := do
  let u ← dictFloat d "uptime_seconds"
  let p ← dictFloat d "processing_success_rate"
  let li ← dictInt d "learning_iterations"
  let ac ← dictInt d "adaptation_count"
  let ec ← dictInt d "error_count"
  let art ← dictFloat d "avg_response_time_ms"
  let mem ← dictFloat d "memory_usage_mb"
  pure { uptime_seconds := u, processing_success_rate := p,
         learning_iterations := li, adaptation_count := ac, error_count := ec,
         avg_response_time_ms := art, memory_usage_mb := mem }

end Daig

namespace Daig

/-- Modelled from the spec: the Metrics Ledger state (§4.1).  The ledger
owns a `NodeMetrics` record plus the running success counter needed to
recompute `processing_success_rate` (the dataclass itself stores only the
rate, not the success count; the `record_*` methods are missing from the
truncated source). -/
structure MetricsLedger where
  successes : ℕ := 0
  metrics : NodeMetrics := {}
deriving DecidableEq, Repr

/-- The freshly reset ledger: zero successes, default `NodeMetrics`. -/
def MetricsLedger.mkFresh : MetricsLedger := {}

/-- Modelled from the spec: `processing_success_rate` is "recomputed, not
accumulated" (§3) as the ratio successes/(successes+errors); with no data
recorded yet the rate is the dataclass default `1.0`
(`src/daig_node.py` line 50). -/
def recomputeRate (successes errors : ℕ) : ℚ :=
  if successes + errors = 0 then 1 else (successes : ℚ) / ((successes : ℚ) + (errors : ℚ))

/-- Modelled from the spec: `record_success(latency_ms)` (§4.1) increments
the success counter, recomputes the success rate, and folds the (zero-
clamped) latency into the running mean response time. -/
def MetricsLedger.record_success (l : MetricsLedger) (latency_ms : ℚ) : MetricsLedger :=
  let s := l.successes + 1
  let lat := max latency_ms 0
  { successes := s,
    metrics := { l.metrics with
      processing_success_rate := recomputeRate s l.metrics.error_count,
      avg_response_time_ms :=
        (l.metrics.avg_response_time_ms * (l.successes : ℚ) + lat) / (s : ℚ) } }

/-- Modelled from the spec: `record_error()` (§4.1) increments `error_count`
and recomputes the success rate. -/
def MetricsLedger.record_error (l : MetricsLedger) : MetricsLedger :=
  let e := l.metrics.error_count + 1
  { successes := l.successes,
    metrics := { l.metrics with
      error_count := e,
      processing_success_rate := recomputeRate l.successes e } }

/-- Modelled from the spec: `success_rate()` (§4.1) returns the rolling
ratio maintained in the metrics record. -/
def MetricsLedger.success_rate (l : MetricsLedger) : ℚ :=
  l.metrics.processing_success_rate

/-- One call in a `record_success`/`record_error` call sequence. -/
inductive LedgerOp where
  | success (latency_ms : ℚ)
  | error
deriving DecidableEq, Repr

/-- Apply one ledger call. -/
def MetricsLedger.step (l : MetricsLedger) : LedgerOp → MetricsLedger
  | .success lat => l.record_success lat
  | .error => l.record_error

/-- Apply a finite sequence of ledger calls in order. -/
def MetricsLedger.run (l : MetricsLedger) (ops : List LedgerOp) : MetricsLedger :=
  ops.foldl MetricsLedger.step l

/-- Number of `record_success` calls in a sequence. -/
def countSuccess (ops : List LedgerOp) : ℕ :=
  ops.countP (fun op => match op with | .success _ => true | .error => false)

/-- Number of `record_error` calls in a sequence. -/
def countError (ops : List LedgerOp) : ℕ :=
  ops.countP (fun op => match op with | .success _ => false | .error => true)

/-- Modelled from the spec: the external signals consumed by the state
machine's transition table (§4.3); the implementation is missing from the
truncated source. -/
inductive ExternalSignal where
  | noSignal
  | bootstrapComplete
  | learningTrigger
  | learningComplete
  | recoverySignal
  | shutdownRequest
deriving DecidableEq, Repr

/-- Modelled from the spec: the configuration thresholds consumed by the
state machine (§6: "error-count threshold and window, success-rate
floor/recovery thresholds — all supplied as an explicit configuration
object"). -/
structure StateMachineConfig where
  errorThreshold : ℕ
  successFloor : ℚ
  recoveryThreshold : ℚ
deriving DecidableEq, Repr

/-- Modelled from the spec: the legal-transition table of §4.3, including
`any → OFFLINE` on shutdown; `OFFLINE` is terminal (no transitions out). -/
def legalTransition : NodeStatus → NodeStatus → Bool
  | .OFFLINE, _ => false
  | _, .OFFLINE => true
  | .BOOTSTRAPPING, .ACTIVE => true
  | .ACTIVE, .LEARNING => true
  | .LEARNING, .ACTIVE => true
  | .ACTIVE, .ADAPTING => true
  | .LEARNING, .ADAPTING => true
  | .ADAPTING, .ACTIVE => true
  | .ACTIVE, .DEGRADED => true
  | .LEARNING, .DEGRADED => true
  | .ADAPTING, .DEGRADED => true
  | .DEGRADED, .ACTIVE => true
  | _, _ => false

/-- Modelled from the spec: transition evaluation as the pure function of
§4.3, `(current_status, metrics_snapshot, capabilities, external_signal) ->
Option<new_status>`, implementing the guards of the transition table;
returns `none` when no transition applies. -/
def evaluateTransition (cfg : StateMachineConfig) (st : NodeStatus)
    (m : NodeMetrics) (caps : Finset NodeCapability) (sig : ExternalSignal) :
    Option NodeStatus :=
  match st with
  | .OFFLINE => none
  | .BOOTSTRAPPING =>
      if sig = .shutdownRequest then some .OFFLINE
      else if sig = .bootstrapComplete then some .ACTIVE
      else none
  | .ACTIVE =>
      if sig = .shutdownRequest then some .OFFLINE
      else if cfg.errorThreshold < m.error_count then some .DEGRADED
      else if sig = .learningTrigger ∧ .ML_TRAINING ∈ caps then some .LEARNING
      else if m.processing_success_rate < cfg.successFloor ∧ .SELF_HEALING ∈ caps then
        some .ADAPTING
      else none
  | .LEARNING =>
      if sig = .shutdownRequest then some .OFFLINE
      else if cfg.errorThreshold < m.error_count then some .DEGRADED
      else if sig = .learningComplete then some .ACTIVE
      else if m.processing_success_rate < cfg.successFloor ∧ .SELF_HEALING ∈ caps then
        some .ADAPTING
      else none
  | .ADAPTING =>
      if sig = .shutdownRequest then some .OFFLINE
      else if cfg.errorThreshold < m.error_count then some .DEGRADED
      else if cfg.recoveryThreshold < m.processing_success_rate then some .ACTIVE
      else none
  | .DEGRADED =>
      if sig = .shutdownRequest then some .OFFLINE
      else if sig = .recoverySignal then some .ACTIVE
      else none

/-- Modelled from the spec: the capability guarding each legal transition
(§4.3: `LEARNING` requires `ML_TRAINING`, `ADAPTING` requires
`SELF_HEALING`); `none` when the transition has no capability guard. -/
def requiredCapability : NodeStatus → NodeStatus → Option NodeCapability
  | .ACTIVE, .LEARNING => some .ML_TRAINING
  | .ACTIVE, .ADAPTING => some .SELF_HEALING
  | .LEARNING, .ADAPTING => some .SELF_HEALING
  | _, _ => none

/-- Errors of the state machine boundary (§7). -/
inductive TransitionError where
  | CapabilityError
  | IllegalTransitionError
deriving DecidableEq, Repr

/-- Modelled from the spec: requesting an explicit transition (§4.2/§4.3):
a transition outside the legal graph fails with `IllegalTransitionError`; a
legal transition whose guard capability is absent fails with
`CapabilityError` (`require(capability)`); otherwise the target is
returned. -/
def requestTransition (caps : Finset NodeCapability) (st tgt : NodeStatus) :
    Except TransitionError NodeStatus :=
  if legalTransition st tgt then
    match requiredCapability st tgt with
    | some c => if c ∈ caps then .ok tgt else .error .CapabilityError
    | none => .ok tgt
  else .error .IllegalTransitionError

/-- The persisted unit (`NodeSnapshot`, spec §3/§6): identity, status,
capabilities, metrics, timestamp. -/
structure NodeSnapshot where
  identity : String
  status : NodeStatus
  capabilities : List NodeCapability
  metrics : NodeMetrics
  last_updated : ℕ
deriving DecidableEq, Repr

/-- Modelled from the spec: classification of one underlying document-store
write call (§6: "a way to classify errors as transient vs. permanent"). -/
inductive ClientResult where
  | ok
  | transient
  | permanent
deriving DecidableEq, Repr

/-- Outcome of `save` (§4.4/§7): success, immediate surface of a permanent
failure, or `PersistenceError::Exhausted` after the retry budget. -/
inductive SaveOutcome where
  | success
  | permanentFailure
  | exhausted
deriving DecidableEq, Repr

/-- Modelled from the spec: the retry loop of the Resilient Persistence
Adapter (§4.4), missing from the truncated source.  `f i` is the result of
the `i`-th underlying call (0-based), `idx` the index of the next call,
`fuel` the attempts remaining out of the configured maximum.  Returns the
outcome together with the index one past the last call made (= total calls
when started at 0).  Retries only on transient failures; a permanent
failure surfaces immediately. -/
def saveLoop (f : ℕ → ClientResult) (idx : ℕ) : ℕ → SaveOutcome × ℕ
  | 0 => (.exhausted, idx)
  | fuel + 1 =>
    match f idx with
    | .ok => (.success, idx + 1)
    | .permanent => (.permanentFailure, idx + 1)
    | .transient =>
      if fuel = 0 then (.exhausted, idx + 1) else saveLoop f (idx + 1) fuel

/-- Modelled from the spec: `save(snapshot)` of the Resilient Persistence
Adapter (§4.4) over an injected client whose per-attempt behavior on a
given snapshot is `client snap i`; `maxAttempts` is the configured maximum
attempt count.  Returns the outcome and the number of underlying calls
performed. -/
def save (client : NodeSnapshot → ℕ → ClientResult) (maxAttempts : ℕ)
    (snap : NodeSnapshot) : SaveOutcome × ℕ :=
  saveLoop (client snap) 0 maxAttempts

/-- `FirebaseConfig` dataclass from `src/firebase_config.py` lines 18–24;
the credentials path is modelled as an optional string. -/
structure FirebaseConfig where
  project_id : String
  credentials_path : Option String := none
  use_emulator : Bool := false
  emulator_host : String := "localhost:8080"
deriving DecidableEq, Repr

/-- The behavior of the external Firebase collaborators during one
`initialize` call: whether each fallible step would succeed, and the client
handle `firestore.client()` would return (handles modelled as naturals). -/
structure FirebaseEnv where
  credentialsFileExists : Bool
  credentialLoadOk : Bool
  appInitOk : Bool
  clientCreateOk : Bool
  healthCheckOk : Bool
  clientHandle : ℕ
deriving DecidableEq, Repr

/-- The underlying cause wrapped into a `FirebaseInitializationError`
(`src/firebase_config.py` lines 26–28, 94–96): the message of the caught
exception. -/
inductive InitFailureCause where
  | missingCredentialsFile
  | credentialLoadFailed
  | appInitFailed
  | clientCreateFailed
  | healthCheckFailed
deriving DecidableEq, Repr

/-- `FirebaseInitializationError` (`src/firebase_config.py` lines 26–28):
the single exception type every initialization failure is wrapped into. -/
structure FirebaseInitializationError where
  cause : InitFailureCause
deriving DecidableEq, Repr

/-- The mutable per-instance state of `FirebaseManager` relevant to client
handling: the `_client` field (`src/firebase_config.py` line 34). -/
structure FirebaseManagerState where
  client : Option ℕ := none
deriving DecidableEq, Repr

/-- `FirebaseManager.initialize` (`src/firebase_config.py` lines 48–96):
validate the credentials path when provided, load credentials, initialize
the app, obtain the Firestore client (stored into `_client`), then run the
health check; the whole body is wrapped in a `try` whose `except` re-raises
every failure as `FirebaseInitializationError`.  Note that `_client` is
assigned before the health check, so a failing health check leaves it
set. -/
def FirebaseManager.initializeClient (cfg : FirebaseConfig) (env : FirebaseEnv)
    (s : FirebaseManagerState) :
    Except FirebaseInitializationError ℕ × FirebaseManagerState :=
  if cfg.credentials_path.isSome ∧ ¬env.credentialsFileExists then
    (.error ⟨.missingCredentialsFile⟩, s)
  else if ¬env.credentialLoadOk then (.error ⟨.credentialLoadFailed⟩, s)
  else if ¬env.appInitOk then (.error ⟨.appInitFailed⟩, s)
  else if ¬env.clientCreateOk then (.error ⟨.clientCreateFailed⟩, s)
  else if ¬env.healthCheckOk then
    (.error ⟨.healthCheckFailed⟩, { s with client := some env.clientHandle })
  else (.ok env.clientHandle, { s with client := some env.clientHandle })

/-- The class-level state of the `FirebaseManager` singleton
(`src/firebase_config.py` lines 30–46): the `_instance` slot, a counter
producing distinct object identities, the `_initialized` flag, and how many
times the guarded `__init__` body has run. -/
structure ManagerClassState where
  inst : Option ℕ := none
  nextId : ℕ := 0
  initDone : Bool := false
  initRuns : ℕ := 0
deriving DecidableEq, Repr

/-- The fresh class state at module import time. -/
def ManagerClassState.initial : ManagerClassState := {}

/-- `FirebaseManager.__new__` (`src/firebase_config.py` lines 37–40):
allocate an instance only when `_instance` is unset, else return the stored
one. -/
def newManager (s : ManagerClassState) : ℕ × ManagerClassState :=
  match s.inst with
  | some i => (i, s)
  | none => (s.nextId, { s with inst := some s.nextId, nextId := s.nextId + 1 })

/-- `FirebaseManager.__init__` (`src/firebase_config.py` lines 42–46): the
body runs only while `_initialized` is false and sets it true. -/
def initManager (s : ManagerClassState) : ManagerClassState :=
  if s.initDone then s
  else { s with initDone := true, initRuns := s.initRuns + 1 }

/-- One `FirebaseManager()` construction: `__new__` then `__init__`,
returning the object identity of the produced instance. -/
def constructManager (s : ManagerClassState) : ℕ × ManagerClassState :=
  let p := newManager s
  (p.1, initManager p.2)

/-- Iterate `FirebaseManager()` construction `n` times from a given class
state. -/
def constructN (s : ManagerClassState) : ℕ → ManagerClassState
  | 0 => s
  | n + 1 => (constructManager (constructN s n)).2

/-- The Python runtime error raised by `get_client` before initialization
(`src/firebase_config.py` lines 110–114). -/
inductive PyRuntimeError where
  | notInitialized
deriving DecidableEq, Repr

/-- `FirebaseManager.get_client` (`src/firebase_config.py` lines 110–114):
raise `RuntimeError` when `_client` is unset, else return it; the state is
returned unchanged on success. -/
def FirebaseManager.get_client (s : FirebaseManagerState) :
    Except PyRuntimeError (ℕ × FirebaseManagerState) :=
  match s.client with
  | none => .error .notInitialized
  | some c => .ok (c, s)

/-- The body of `FirebaseManager.shutdown`'s `try` block
(`src/firebase_config.py` lines 118–121): app teardown may raise (modelled
by `teardownOk = false`); on success `_client` is cleared. -/
def shutdownBody (teardownOk : Bool) (s : FirebaseManagerState) :
    Except Unit FirebaseManagerState :=
  if teardownOk then .ok { s with client := none } else .error ()

/-- `FirebaseManager.shutdown` (`src/firebase_config.py` lines 116–123):
the `except` clause catches any teardown exception and only logs it, so the
method always returns normally; on a caught exception the state is left as
it was (the `_client = None` assignment was not reached). -/
def FirebaseManager.shutdown (teardownOk : Bool) (s : FirebaseManagerState) :
    FirebaseManagerState :=
  match shutdownBody teardownOk s with
  | .ok s' => s'
  | .error _ => s

theorem MetricsLedger.run_append (l : MetricsLedger) (xs ys : List LedgerOp) :
    l.run (xs ++ ys) = (l.run xs).run ys := by
  simp [MetricsLedger.run, List.foldl_append]

theorem MetricsLedger.step_successes (l : MetricsLedger) (op : LedgerOp) :
    (l.step op).successes =
      l.successes + (match op with | .success _ => 1 | .error => 0) := by
  cases op <;> simp [MetricsLedger.step, MetricsLedger.record_success,
    MetricsLedger.record_error]

theorem MetricsLedger.step_error_count (l : MetricsLedger) (op : LedgerOp) :
    (l.step op).metrics.error_count =
      l.metrics.error_count + (match op with | .success _ => 0 | .error => 1) := by
  cases op <;> simp [MetricsLedger.step, MetricsLedger.record_success,
    MetricsLedger.record_error]

theorem MetricsLedger.step_learning (l : MetricsLedger) (op : LedgerOp) :
    (l.step op).metrics.learning_iterations = l.metrics.learning_iterations := by
  cases op <;> simp [MetricsLedger.step, MetricsLedger.record_success,
    MetricsLedger.record_error]

theorem MetricsLedger.step_adaptation (l : MetricsLedger) (op : LedgerOp) :
    (l.step op).metrics.adaptation_count = l.metrics.adaptation_count := by
  cases op <;> simp [MetricsLedger.step, MetricsLedger.record_success,
    MetricsLedger.record_error]

theorem MetricsLedger.run_successes (l : MetricsLedger) (ops : List LedgerOp) :
    (l.run ops).successes = l.successes + countSuccess ops := by
  induction ops generalizing l with
  | nil => simp [MetricsLedger.run, countSuccess]
  | cons op rest ih =>
    have h := ih (l.step op)
    cases op <;>
      simp_all [MetricsLedger.run, countSuccess, MetricsLedger.step_successes,
        MetricsLedger.step, MetricsLedger.record_success, MetricsLedger.record_error,
        List.countP_cons]
    all_goals omega

theorem MetricsLedger.run_error_count (l : MetricsLedger) (ops : List LedgerOp) :
    (l.run ops).metrics.error_count = l.metrics.error_count + countError ops := by
  induction ops generalizing l with
  | nil => simp [MetricsLedger.run, countError]
  | cons op rest ih =>
    have h := ih (l.step op)
    cases op <;>
      simp_all [MetricsLedger.run, countError, MetricsLedger.step,
        MetricsLedger.record_success, MetricsLedger.record_error,
        List.countP_cons]
    all_goals omega

theorem MetricsLedger.run_learning (l : MetricsLedger) (ops : List LedgerOp) :
    (l.run ops).metrics.learning_iterations = l.metrics.learning_iterations := by
  induction ops generalizing l with
  | nil => rfl
  | cons op rest ih =>
    have h := ih (l.step op)
    simpa [MetricsLedger.run, MetricsLedger.step_learning] using h.trans
      (MetricsLedger.step_learning l op)

theorem MetricsLedger.run_adaptation (l : MetricsLedger) (ops : List LedgerOp) :
    (l.run ops).metrics.adaptation_count = l.metrics.adaptation_count := by
  induction ops generalizing l with
  | nil => rfl
  | cons op rest ih =>
    have h := ih (l.step op)
    simpa [MetricsLedger.run, MetricsLedger.step_adaptation] using h.trans
      (MetricsLedger.step_adaptation l op)

theorem MetricsLedger.run_rate_recomputed (l : MetricsLedger) (ops : List LedgerOp)
    (h : ops ≠ []) :
    (l.run ops).success_rate =
      recomputeRate (l.run ops).successes (l.run ops).metrics.error_count := by
  induction ops generalizing l with
  | nil => exact absurd rfl h
  | cons op rest ih =>
    rcases eq_or_ne rest [] with hrest | hrest
    · subst hrest
      cases op <;>
        simp [MetricsLedger.run, MetricsLedger.step, MetricsLedger.record_success,
          MetricsLedger.record_error, MetricsLedger.success_rate]
    · have h' := ih (l.step op) hrest
      simpa [MetricsLedger.run] using h'

theorem countSuccess_add_countError (ops : List LedgerOp) :
    countSuccess ops + countError ops = ops.length := by
  induction ops with
  | nil => rfl
  | cons op rest ih =>
    cases op <;> simp [countSuccess, countError, List.countP_cons] at * <;> omega

/-- **C4 (amended).** For every non-empty sequence of `record_error` /
`record_success` calls on a fresh Metrics Ledger, `success_rate()` equals
successes/(successes+errors); for the empty sequence it is the dataclass
default `1`; and `error_count`, `learning_iterations`, `adaptation_count`
are monotonically non-decreasing along the sequence. -/
theorem ledger_success_rate_and_monotone (ops extra : List LedgerOp)
    (h : ops ≠ []) :
    (MetricsLedger.mkFresh.run ops).success_rate =
      (countSuccess ops : ℚ) / ((countSuccess ops : ℚ) + (countError ops : ℚ)) ∧
    MetricsLedger.mkFresh.success_rate = 1 ∧
    (MetricsLedger.mkFresh.run ops).metrics.error_count ≤
      (MetricsLedger.mkFresh.run (ops ++ extra)).metrics.error_count ∧
    (MetricsLedger.mkFresh.run ops).metrics.learning_iterations ≤
      (MetricsLedger.mkFresh.run (ops ++ extra)).metrics.learning_iterations ∧
    (MetricsLedger.mkFresh.run ops).metrics.adaptation_count ≤
      (MetricsLedger.mkFresh.run (ops ++ extra)).metrics.adaptation_count := by
  have hlen : countSuccess ops + countError ops = ops.length :=
    countSuccess_add_countError ops
  have hpos : countSuccess ops + countError ops ≠ 0 := by
    rw [hlen]
    exact fun h0 => h (List.length_eq_zero.mp h0)
  refine ⟨?_, rfl, ?_, ?_, ?_⟩
  · rw [MetricsLedger.run_rate_recomputed _ _ h,
      MetricsLedger.run_successes, MetricsLedger.run_error_count]
    simp only [MetricsLedger.mkFresh]
    simp [recomputeRate, hpos]
  · rw [MetricsLedger.run_append,
      MetricsLedger.run_error_count (MetricsLedger.mkFresh.run ops) extra]
    omega
  · rw [MetricsLedger.run_append]
    exact le_of_eq (MetricsLedger.run_learning (MetricsLedger.mkFresh.run ops) extra).symm
  · rw [MetricsLedger.run_append]
    exact le_of_eq (MetricsLedger.run_adaptation (MetricsLedger.mkFresh.run ops) extra).symm

/-- **C4 witness.** The amended theorem applied at the concrete sequence
`[record_error, record_success 5]`: the rolling success rate is `1/2`. -/
theorem ledger_success_rate_witness :
    (MetricsLedger.mkFresh.run [.error, .success 5]).success_rate = 1 / 2 := by
  have h := ledger_success_rate_and_monotone [.error, .success 5] [] (by decide)
  have h1 := h.1
  norm_num [countSuccess, countError, List.countP_cons] at h1
  simpa using h1

/-- **C4 counterexample.** The claim as stated fails on the empty call
sequence: `success_rate()` of a fresh ledger is the dataclass default `1`,
not the ratio `0/0` (which is `0` as a rational). -/
theorem ledger_empty_sequence_counterexample :
    (MetricsLedger.mkFresh.run []).success_rate ≠
      (countSuccess ([] : List LedgerOp) : ℚ) /
        ((countSuccess ([] : List LedgerOp) : ℚ) +
          (countError ([] : List LedgerOp) : ℚ)) := by
  norm_num [MetricsLedger.run, MetricsLedger.mkFresh, MetricsLedger.success_rate,
    countSuccess, countError]

/-- **C5.** `NodeStatus` has exactly the six declared members and
`NodeCapability` exactly the five declared members; both are closed sets
(every value is one of the listed constructors, which are pairwise
distinct). -/
theorem nodeStatus_capability_closed_sets :
    (Finset.univ : Finset NodeStatus).card = 6 ∧
    (Finset.univ : Finset NodeCapability).card = 5 ∧
    (∀ s : NodeStatus,
      s = .BOOTSTRAPPING ∨ s = .ACTIVE ∨ s = .LEARNING ∨
      s = .ADAPTING ∨ s = .DEGRADED ∨ s = .OFFLINE) ∧
    (∀ c : NodeCapability,
      c = .DATA_PROCESSING ∨ c = .ML_TRAINING ∨ c = .DECISION_MAKING ∨
      c = .COMMUNICATION ∨ c = .SELF_HEALING) ∧
    Function.Injective NodeStatus.value ∧
    Function.Injective NodeCapability.value := by
  refine ⟨by decide, by decide, ?_, ?_, ?_, ?_⟩
  · intro s; cases s <;> simp
  · intro c; cases c <;> simp
  · intro a b h; cases a <;> cases b <;> first | rfl | simp [NodeStatus.value] at h
  · intro a b h; cases a <;> cases b <;> first | rfl | simp [NodeCapability.value] at h

/-- **C6.** A default-constructed `NodeMetrics` satisfies all declared range
constraints: the three float fields are non-negative, the counters are
naturals (hence non-negative), and the success rate lies in `[0, 1]`. -/
theorem default_metrics_in_range :
    0 ≤ NodeMetrics.mkDefault.uptime_seconds ∧
    0 ≤ NodeMetrics.mkDefault.avg_response_time_ms ∧
    0 ≤ NodeMetrics.mkDefault.memory_usage_mb ∧
    0 ≤ NodeMetrics.mkDefault.processing_success_rate ∧
    NodeMetrics.mkDefault.processing_success_rate ≤ 1 ∧
    NodeMetrics.mkDefault.learning_iterations = 0 ∧
    NodeMetrics.mkDefault.adaptation_count = 0 ∧
    NodeMetrics.mkDefault.error_count = 0 := by
  refine ⟨?_, ?_, ?_, ?_, ?_, rfl, rfl, rfl⟩ <;> norm_num [NodeMetrics.mkDefault]

/-- **C1.** `NodeMetrics.to_dict` contains an entry for every one of the
seven metric fields, each mapped to that field's current value, and all
seven fields round-trip symmetrically: deserializing the dict recovers the
original metrics value. -/
theorem to_dict_seven_fields_roundtrip (m : NodeMetrics) :
    dictFloat m.to_dict "uptime_seconds" = some m.uptime_seconds ∧
    dictFloat m.to_dict "processing_success_rate" = some m.processing_success_rate ∧
    dictInt m.to_dict "learning_iterations" = some m.learning_iterations ∧
    dictInt m.to_dict "adaptation_count" = some m.adaptation_count ∧
    dictInt m.to_dict "error_count" = some m.error_count ∧
    dictFloat m.to_dict "avg_response_time_ms" = some m.avg_response_time_ms ∧
    dictFloat m.to_dict "memory_usage_mb" = some m.memory_usage_mb ∧
    NodeMetrics.of_dict m.to_dict = some m := by
  refine ⟨rfl, ?_, ?_, ?_, ?_, ?_, ?_, ?_⟩ <;>
    simp [NodeMetrics.to_dict, NodeMetrics.of_dict, dictFloat, dictInt, List.lookup]

/-- **C3.** Transition evaluation is a pure function returning an optional
new status; whenever it returns a new status the pair (current, new) is in
the declared legal-transition table; the new status's guard capability (if
any) is always present in the capability set; and explicitly requesting a
legal transition whose guard capability is absent yields `CapabilityError`,
never a silent transition. -/
theorem transition_legal_and_capability_guarded (cfg : StateMachineConfig)
    (st : NodeStatus) (m : NodeMetrics) (caps : Finset NodeCapability)
    (sig : ExternalSignal) :
    (∀ t, evaluateTransition cfg st m caps sig = some t →
      legalTransition st t = true) ∧
    (∀ t c, evaluateTransition cfg st m caps sig = some t →
      requiredCapability st t = some c → c ∈ caps) ∧
    (∀ tgt c, requiredCapability st tgt = some c → c ∉ caps →
      requestTransition caps st tgt = .error .CapabilityError) := by
  refine ⟨?_, ?_, ?_⟩
  · intro t ht
    cases st <;> simp only [evaluateTransition] at ht <;>
      (try split_ifs at ht) <;>
      (first
        | exact Option.noConfusion ht
        | (injection ht with ht; subst ht; decide))
  · intro t c ht hc
    cases st <;> simp only [evaluateTransition] at ht <;>
      (try split_ifs at ht) <;>
      (first
        | exact Option.noConfusion ht
        | (injection ht with ht; subst ht; simp_all [requiredCapability]))
  · intro tgt c hreq habs
    cases st <;> cases tgt <;>
      simp_all [requiredCapability, requestTransition, legalTransition]

/-- **C3 witness.** The theorem at a concrete input: an `ACTIVE` node with
only `DATA_PROCESSING` receiving a learning trigger — the evaluation's
output is legal, and requesting `LEARNING` yields `CapabilityError`. -/
theorem transition_witness :
    requestTransition {NodeCapability.DATA_PROCESSING}
      NodeStatus.ACTIVE NodeStatus.LEARNING =
      .error TransitionError.CapabilityError := by
  have h := transition_legal_and_capability_guarded
    ⟨5, 1/2, 9/10⟩ NodeStatus.ACTIVE NodeMetrics.mkDefault
    {NodeCapability.DATA_PROCESSING} ExternalSignal.learningTrigger
  exact h.2.2 NodeStatus.LEARNING NodeCapability.ML_TRAINING (by decide) (by decide)

theorem saveLoop_transient_then_ok (f : ℕ → ClientResult) :
    ∀ (n idx fuel : ℕ), (∀ j, j < n → f (idx + j) = .transient) →
      f (idx + n) = .ok → n < fuel →
      saveLoop f idx fuel = (.success, idx + n + 1) := by
  intro n
  induction n with
  | zero =>
    intro idx fuel _ hok hlt
    obtain ⟨fuel', rfl⟩ : ∃ k, fuel = k + 1 :=
      ⟨fuel - 1, by omega⟩
    simp only [saveLoop]
    rw [show idx + 0 = idx by omega] at hok
    rw [hok]
  | succ n ih =>
    intro idx fuel htr hok hlt
    obtain ⟨fuel', rfl⟩ : ∃ k, fuel = k + 1 := ⟨fuel - 1, by omega⟩
    have h0 : f idx = .transient := by
      have := htr 0 (by omega)
      simpa using this
    have hfuel' : fuel' ≠ 0 := by omega
    simp only [saveLoop, h0, if_neg hfuel']
    have htr' : ∀ j, j < n → f (idx + 1 + j) = .transient := by
      intro j hj
      have := htr (j + 1) (by omega)
      simpa [Nat.add_assoc, Nat.add_comm 1 j] using this
    have hok' : f (idx + 1 + n) = .ok := by
      simpa [Nat.add_assoc, Nat.add_comm 1 n] using hok
    have := ih (idx + 1) fuel' htr' hok' (by omega)
    rw [this]
    refine congrArg _ ?_
    omega

/-- **C2.** For every snapshot and injected client that fails transiently on
the first `n` calls and succeeds on call `n`, with `n` below the configured
maximum attempt count, `save` returns success having performed exactly
`n + 1` underlying calls; for every client whose first call fails
permanently, `save` performs exactly one call and does not retry. -/
theorem save_retry_policy (client : NodeSnapshot → ℕ → ClientResult)
    (snap : NodeSnapshot) (n maxAttempts : ℕ) :
    ((∀ j, j < n → client snap j = .transient) → client snap n = .ok →
      n < maxAttempts →
      save client maxAttempts snap = (.success, n + 1)) ∧
    (client snap 0 = .permanent → 0 < maxAttempts →
      save client maxAttempts snap = (.permanentFailure, 1)) := by
  constructor
  · intro htr hok hlt
    have := saveLoop_transient_then_ok (client snap) n 0 maxAttempts
      (by simpa using htr) (by simpa using hok) hlt
    simpa [save] using this
  · intro hp hpos
    obtain ⟨k, rfl⟩ : ∃ k, maxAttempts = k + 1 := ⟨maxAttempts - 1, by omega⟩
    simp only [save, saveLoop, hp]

/-- **C2 witness.** The retry theorem at concrete inputs: a client transient
on calls 0 and 1 and succeeding on call 2 gives success with 3 calls under
a 5-attempt budget; an immediately-permanent client gives one call. -/
theorem save_retry_witness :
    save (fun _ i => if i < 2 then ClientResult.transient else .ok) 5
      ⟨"node-1", .ACTIVE, [.DATA_PROCESSING], {}, 0⟩ = (.success, 3) ∧
    save (fun _ _ => ClientResult.permanent) 5
      ⟨"node-1", .ACTIVE, [.DATA_PROCESSING], {}, 0⟩ = (.permanentFailure, 1) := by
  constructor
  · exact (save_retry_policy (fun _ i => if i < 2 then .transient else .ok)
      ⟨"node-1", .ACTIVE, [.DATA_PROCESSING], {}, 0⟩ 2 5).1
      (by decide) (by decide) (by decide)
  · exact (save_retry_policy (fun _ _ => .permanent)
      ⟨"node-1", .ACTIVE, [.DATA_PROCESSING], {}, 0⟩ 0 5).2 rfl (by decide)

/-- **C7.** `FirebaseManager.initialize` either returns a client after a
successful health check or fails with `FirebaseInitializationError`: a
client is returned exactly when every underlying step (credentials file
present when a path is given, credential load, app init, client creation,
health check) succeeds, and each failure surfaces as
`FirebaseInitializationError` with no client returned. -/
theorem initialize_all_or_nothing (cfg : FirebaseConfig) (env : FirebaseEnv)
    (s : FirebaseManagerState) :
    ((∃ c, (FirebaseManager.initializeClient cfg env s).1 = .ok c) ↔
      ((cfg.credentials_path.isSome → env.credentialsFileExists) ∧
        env.credentialLoadOk ∧ env.appInitOk ∧ env.clientCreateOk ∧
        env.healthCheckOk)) ∧
    (∀ c, (FirebaseManager.initializeClient cfg env s).1 = .ok c →
      c = env.clientHandle ∧ env.healthCheckOk = true) ∧
    (∀ e, (FirebaseManager.initializeClient cfg env s).1 = .error e →
      ∀ c, (FirebaseManager.initializeClient cfg env s).1 ≠ .ok c) := by
  unfold FirebaseManager.initializeClient
  split_ifs with h1 h2 h3 h4 h5 <;>
    simp_all

/-- **C7 witness.** The theorem at a concrete input: with every collaborator
step succeeding, `initialize` returns the Firestore client handle. -/
theorem initialize_witness :
    (FirebaseManager.initializeClient ⟨"proj", none, false, "localhost:8080"⟩
      ⟨true, true, true, true, true, 7⟩ {}).1 = .ok 7 := by
  have h := initialize_all_or_nothing ⟨"proj", none, false, "localhost:8080"⟩
    ⟨true, true, true, true, true, 7⟩ {}
  obtain ⟨c, hc⟩ := h.1.mpr (by simp)
  have := h.2.1 c hc
  rw [hc, this.1]

theorem constructManager_initRuns (s : ManagerClassState)
    (h1 : s.initRuns ≤ 1) (h2 : s.initDone = false → s.initRuns = 0) :
    (constructManager s).2.initRuns ≤ 1 ∧
    ((constructManager s).2.initDone = false →
      (constructManager s).2.initRuns = 0) := by
  unfold constructManager newManager initManager
  rcases hs : s.inst with _ | j <;> simp only <;> split_ifs <;> simp_all

theorem constructN_initRuns_invariant (n : ℕ) :
    (constructN ManagerClassState.initial n).initRuns ≤ 1 ∧
    ((constructN ManagerClassState.initial n).initDone = false →
      (constructN ManagerClassState.initial n).initRuns = 0) := by
  induction n with
  | zero => simp [constructN, ManagerClassState.initial]
  | succ k ih => exact constructManager_initRuns _ ih.1 ih.2

/-- **C8.** `FirebaseManager()` construction is idempotent: once an instance
exists every further construction returns the same object identity and
leaves the class state unchanged, and from the fresh module-load state the
guarded `__init__` body runs at most once no matter how many constructions
occur. -/
theorem manager_singleton (s s' : ManagerClassState) (i : ℕ)
    (h : constructManager s = (i, s')) :
    constructManager s' = (i, s') ∧
    ∀ n, (constructN ManagerClassState.initial n).initRuns ≤ 1 := by
  constructor
  · have hinst : s'.inst = some i ∧ s'.initDone = true := by
      unfold constructManager newManager initManager at h
      rcases hs : s.inst with _ | j <;>
        rw [hs] at h <;>
        simp only at h <;>
        split_ifs at h <;>
        cases h <;>
        simp_all
    unfold constructManager newManager initManager
    rw [hinst.1]
    simp [hinst.2]
  · intro n
    exact (constructN_initRuns_invariant n).1

/-- **C8 witness.** The theorem at the concrete fresh class state: the
second construction returns the instance allocated by the first and leaves
the state fixed, and `__init__` has run at most once after, e.g., three
constructions. -/
theorem manager_singleton_witness :
    constructManager (constructManager ManagerClassState.initial).2 =
      (0, (constructManager ManagerClassState.initial).2) ∧
    (constructN ManagerClassState.initial 3).initRuns ≤ 1 := by
  have h := manager_singleton ManagerClassState.initial
    (constructManager ManagerClassState.initial).2 0 (by decide)
  exact ⟨h.1, h.2 3⟩

/-- **C9.** `FirebaseManager.get_client` raises `RuntimeError` exactly when
no client is stored, and otherwise returns the stored client without
modifying the manager state. -/
theorem get_client_iff_stored (s : FirebaseManagerState) :
    (FirebaseManager.get_client s = .error .notInitialized ↔ s.client = none) ∧
    (∀ c s', FirebaseManager.get_client s = .ok (c, s') →
      s.client = some c ∧ s' = s) := by
  constructor
  · constructor
    · intro h
      rcases hs : s.client with _ | c
      · rfl
      · rw [FirebaseManager.get_client, hs] at h
        exact Except.noConfusion h
    · intro h
      rw [FirebaseManager.get_client, h]
  · intro c s' h
    rcases hs : s.client with _ | c'
    · rw [FirebaseManager.get_client, hs] at h
      exact Except.noConfusion h
    · rw [FirebaseManager.get_client, hs] at h
      simp only [Except.ok.injEq, Prod.mk.injEq] at h
      exact ⟨congrArg some h.1, h.2.symm⟩

/-- **C9 witness.** The theorem at a concrete state holding client `4`:
`get_client` returns `4` and the unchanged state. -/
theorem get_client_witness :
    ({ client := some 4 } : FirebaseManagerState).client = some 4 := by
  have h := get_client_iff_stored { client := some 4 }
  exact (h.2 4 { client := some 4 } rfl).1

/-- **C10.** `FirebaseManager.shutdown` always returns (the `except` clause
absorbs any teardown exception): on successful teardown the stored client
is cleared, and on a teardown exception the state — including the stored
client — is left exactly as it was. -/
theorem shutdown_total (s : FirebaseManagerState) :
    FirebaseManager.shutdown true s = { s with client := none } ∧
    FirebaseManager.shutdown false s = s := by
  constructor <;> rfl

end Daig
